import Mathlib

/-!
Verification of the zk-example repository: a halo2 circuit encoding
`y = x^3 + x + c` together with its mock-prover check (src/halo/src/main.rs),
and a risc0 guest computing the same polynomial with checked u64 arithmetic
(src/resczero/methods/guest/src/main.rs, src/resczero/host/src/lib.rs).
-/

namespace ZkExample

/-- The order of the Pasta base field `Fp` (the Pallas base field) used by
`halo2_proofs::pasta::Fp`. -/
def PASTA_P : Nat :=
  0x40000000000000000000000000000000224698fc094cf91b992d30ed00000001

/-- The circuit's field of values, `pasta::Fp`. -/
abbrev F : Type := ZMod PASTA_P

/-- `halo2_proofs::circuit::Value`: a cell value that is either known or
unknown (the value-free structural pass uses `unknown`). -/
inductive Value (α : Type) where
  | unknown : Value α
  | known : α → Value α
deriving DecidableEq, Repr

namespace Value

/-- Addition on `Value`: unknown absorbs (halo2 `Value` zips the options). -/
def add {α : Type} [Add α] : Value α → Value α → Value α
  | .known a, .known b => .known (a + b)
  | _, _ => .unknown

/-- Multiplication on `Value`: unknown absorbs. -/
def mul {α : Type} [Mul α] : Value α → Value α → Value α
  | .known a, .known b => .known (a * b)
  | _, _ => .unknown

/-- Subtraction on `Value`: unknown absorbs. -/
def sub {α : Type} [Sub α] : Value α → Value α → Value α
  | .known a, .known b => .known (a - b)
  | _, _ => .unknown

instance {α : Type} [Add α] : Add (Value α) := ⟨Value.add⟩
instance {α : Type} [Mul α] : Mul (Value α) := ⟨Value.mul⟩
instance {α : Type} [Sub α] : Sub (Value α) := ⟨Value.sub⟩

@[simp] theorem known_add_known {α : Type} [Add α] (a b : α) :
    (known a : Value α) + known b = known (a + b) := rfl

@[simp] theorem known_mul_known {α : Type} [Mul α] (a b : α) :
    (known a : Value α) * known b = known (a * b) := rfl

@[simp] theorem known_sub_known {α : Type} [Sub α] (a b : α) :
    (known a : Value α) - known b = known (a - b) := rfl

@[simp] theorem unknown_add {α : Type} [Add α] (v : Value α) :
    (unknown : Value α) + v = unknown := rfl

@[simp] theorem add_unknown {α : Type} [Add α] (v : Value α) :
    v + (unknown : Value α) = unknown := by cases v <;> rfl

@[simp] theorem unknown_mul {α : Type} [Mul α] (v : Value α) :
    (unknown : Value α) * v = unknown := rfl

@[simp] theorem mul_unknown {α : Type} [Mul α] (v : Value α) :
    v * (unknown : Value α) = unknown := by cases v <;> rfl

@[simp] theorem unknown_sub {α : Type} [Sub α] (v : Value α) :
    (unknown : Value α) - v = unknown := rfl

@[simp] theorem sub_unknown {α : Type} [Sub α] (v : Value α) :
    v - (unknown : Value α) = unknown := by cases v <;> rfl

@[simp] theorem known.injEq' {α : Type} (a b : α) :
    (known a = known b) ↔ a = b := by
  constructor
  · intro h; cases h; rfl
  · intro h; rw [h]

end Value

/-! ## Columns and the constraint system (configuration phase)

Modelled from the spec: the configuration API of `halo2_proofs::plonk`
(`ConstraintSystem`, columns, selectors, `create_gate`) is an external library
whose behaviour the spec describes in sections 3 and 4.1; the concrete calls
made against it are translated from `FieldChip::configure` and
`MyCircuit::configure` in src/halo/src/main.rs. -/

/-- The kind of a table column: advice (witness), instance (public input) or
fixed (circuit constants). -/
inductive ColKind where
  | advice : ColKind
  | instanceCol : ColKind
  | fixed : ColKind
deriving DecidableEq, Repr

/-- A column: identifier plus kind, immutable after configuration. -/
structure Column where
  kind : ColKind
  idx : Nat
deriving DecidableEq, Repr

/-- A gate polynomial over queried cells: advice queries carry a column index
and a row-relative rotation; selector queries carry a selector index. -/
inductive Expr where
  | advice : Nat → Int → Expr
  | selectorQ : Nat → Expr
  | constE : F → Expr
  | add : Expr → Expr → Expr
  | sub : Expr → Expr → Expr
  | mul : Expr → Expr → Expr
deriving DecidableEq, Repr

/-- Evaluate a gate polynomial, given an advice-query assignment
(column, rotation) and a selector-query assignment; arithmetic is over
`Value F`, so unknown cells absorb. -/
def Expr.eval (adv : Nat → Int → Value F) (sel : Nat → Value F) :
    Expr → Value F
  | .advice c rot => adv c rot
  | .selectorQ s => sel s
  | .constE c => .known c
  | .add a b => a.eval adv sel + b.eval adv sel
  | .sub a b => a.eval adv sel - b.eval adv sel
  | .mul a b => a.eval adv sel * b.eval adv sel

/-- Modelled from the spec: the mutable configuration state built before any
witness exists — declared columns, selectors, equality-enabled columns, the
constant column, and the registered gates. -/
structure ConstraintSystem where
  numAdvice : Nat
  numInstance : Nat
  numFixed : Nat
  numSelectors : Nat
  equalityCols : List Column
  constantCols : List Column
  gates : List (String × List Expr)
deriving Repr

/-- The empty constraint system handed to `MyCircuit::configure`. -/
def ConstraintSystem.init : ConstraintSystem := ⟨0, 0, 0, 0, [], [], []⟩

/-- `meta.advice_column()`: declares a fresh advice column. -/
def ConstraintSystem.advice_column (cs : ConstraintSystem) :
    Column × ConstraintSystem :=
  (⟨.advice, cs.numAdvice⟩, { cs with numAdvice := cs.numAdvice + 1 })

/-- `meta.instance_column()`: declares a fresh instance column. -/
def ConstraintSystem.instance_column (cs : ConstraintSystem) :
    Column × ConstraintSystem :=
  (⟨.instanceCol, cs.numInstance⟩, { cs with numInstance := cs.numInstance + 1 })

/-- `meta.fixed_column()`: declares a fresh fixed column. -/
def ConstraintSystem.fixed_column (cs : ConstraintSystem) :
    Column × ConstraintSystem :=
  (⟨.fixed, cs.numFixed⟩, { cs with numFixed := cs.numFixed + 1 })

/-- `meta.selector()`: declares a fresh selector. -/
def ConstraintSystem.selector (cs : ConstraintSystem) :
    Nat × ConstraintSystem :=
  (cs.numSelectors, { cs with numSelectors := cs.numSelectors + 1 })

/-- `meta.enable_equality(column)`: marks a column eligible for copy
constraints. -/
def ConstraintSystem.enable_equality (cs : ConstraintSystem) (c : Column) :
    ConstraintSystem :=
  { cs with equalityCols := c :: cs.equalityCols }

/-- `meta.enable_constant(column)`: designates the fixed column used for
constant-anchored assignments. -/
def ConstraintSystem.enable_constant (cs : ConstraintSystem) (c : Column) :
    ConstraintSystem :=
  { cs with constantCols := c :: cs.constantCols }

/-- `meta.create_gate(name, polys)`: registers the identities
`poly == 0`, checked at every row where the polynomial's selector is 1. -/
def ConstraintSystem.create_gate (cs : ConstraintSystem) (name : String)
    (polys : List Expr) : ConstraintSystem :=
  { cs with gates := cs.gates ++ [(name, polys)] }

/-- The chip's configuration, translated from `FieldConfig` in
src/halo/src/main.rs: two advice columns, the instance column, and the two
gate selectors. -/
structure FieldConfig where
  advice : Column × Column
  instanceCol : Column
  s_mul : Nat
  s_add : Nat
deriving DecidableEq, Repr

namespace FieldChip

/-- `FieldChip::configure`, translated line by line from
src/halo/src/main.rs: enables the constant column and equality on the
instance and both advice columns, allocates the `s_mul` and `s_add`
selectors, and registers the single gate "mul|add" whose two polynomials are
`s_mul * (a_0 * a_1 - out)` and `s_add * (a_0 + a_1 - out)`, with `a_0`,
`a_1` the two advice columns at the current row and `out` advice column 0 at
rotation +1. -/
def configure (meta0 : ConstraintSystem) (advice : Column × Column)
    (instanceCol : Column) (constant : Column) :
    FieldConfig × ConstraintSystem :=
  let m1 := meta0.enable_constant constant
  let m2 := m1.enable_equality instanceCol
  let m3 := m2.enable_equality advice.1
  let m4 := m3.enable_equality advice.2
  let ps := m4.selector
  let s_mul := ps.1
  let qs := ps.2.selector
  let s_add := qs.1
  let a_0 := Expr.advice advice.1.idx 0
  let a_1 := Expr.advice advice.2.idx 0
  let out := Expr.advice advice.1.idx 1
  let s_1 := Expr.mul (.selectorQ s_mul) (.sub (.mul a_0 a_1) out)
  let s_2 := Expr.mul (.selectorQ s_add) (.sub (.add a_0 a_1) out)
  let m5 := qs.2.create_gate "mul|add" [s_1, s_2]
  (⟨advice, instanceCol, s_mul, s_add⟩, m5)

end FieldChip

/-! ## Synthesis (witness assignment)

Modelled from the spec: the layouter (`SimpleFloorPlanner`) places each
region sequentially, committing its starting row into a shared layout
cursor; assignments, selector enables, copy constraints and instance
bindings are collected into the table state below (sections 3 and 4.2 of the
spec). The sequence of chip calls against this API is translated from
src/halo/src/main.rs. -/

/-- An absolute advice cell: (column index, absolute row). -/
abbrev CellRef : Type := Nat × Nat

/-- `Number(AssignedCell)`: an immutable handle wrapping a cell and its
value. -/
structure Number where
  cell : CellRef
  val : Value F
deriving DecidableEq, Repr

/-- Modelled from the spec: the table built during synthesis — the layout
cursor, the assigned advice cells (newest first), the enabled selectors, the
copy constraints, the constant bindings and the instance bindings. -/
structure SynthState where
  nextRow : Nat
  advice : List (CellRef × Value F)
  selectors : List (Nat × Nat)
  copies : List (CellRef × CellRef)
  constants : List (CellRef × F)
  instBindings : List (CellRef × Nat)
deriving DecidableEq, Repr

/-- The empty table, before any region is laid out. -/
def SynthState.init : SynthState := ⟨0, [], [], [], [], []⟩

/-- Look a cell up in the assignment list; an unassigned cell reads as
unknown (an unresolved cell in the spec's terms). -/
def lookupCell : List (CellRef × Value F) → Nat → Nat → Value F
  | [], _, _ => .unknown
  | (k, v) :: rest, c, r => if k.1 = c ∧ k.2 = r then v else lookupCell rest c r

/-- The value held by advice cell (`c`, `r`) after synthesis. -/
def SynthState.advVal (st : SynthState) (c r : Nat) : Value F :=
  lookupCell st.advice c r

namespace FieldChip

/-- `load_private`: opens a one-row region and assigns `x` (possibly
unknown) to advice column 0, row 0 of the region; enables no selector. -/
def load_private (cfg : FieldConfig) (st : SynthState) (x : Value F) :
    Number × SynthState :=
  let r := st.nextRow
  (⟨(cfg.advice.1.idx, r), x⟩,
   { st with
      nextRow := r + 1,
      advice := ((cfg.advice.1.idx, r), x) :: st.advice })

/-- `load_constant`: opens a one-row region and assigns the constant into
advice column 0 via constant-anchored assignment, recording the binding of
that cell to the externally fixed value. -/
def load_constant (cfg : FieldConfig) (st : SynthState) (c : F) :
    Number × SynthState :=
  let r := st.nextRow
  (⟨(cfg.advice.1.idx, r), .known c⟩,
   { st with
      nextRow := r + 1,
      advice := ((cfg.advice.1.idx, r), .known c) :: st.advice,
      constants := ((cfg.advice.1.idx, r), c) :: st.constants })

/-- `mul(a, b)`: opens a two-row region; enables `s_mul` at row 0 of the
region; copies `a` into advice-0/row 0 and `b` into advice-1/row 0 (a copy
constraint plus an assignment of the copied value); assigns `a * b` (in
`Value` arithmetic, so unknown absorbs) to advice-0/row 1; returns the
handle of the result cell. -/
def mul (cfg : FieldConfig) (st : SynthState) (a b : Number) :
    Number × SynthState :=
  let r := st.nextRow
  let v := a.val * b.val
  (⟨(cfg.advice.1.idx, r + 1), v⟩,
   { st with
      nextRow := r + 2,
      selectors := (cfg.s_mul, r) :: st.selectors,
      copies := (b.cell, (cfg.advice.2.idx, r)) ::
        (a.cell, (cfg.advice.1.idx, r)) :: st.copies,
      advice := ((cfg.advice.1.idx, r + 1), v) ::
        ((cfg.advice.2.idx, r), b.val) ::
        ((cfg.advice.1.idx, r), a.val) :: st.advice })

/-- `add(a, b)`: identical to `mul` except that it enables `s_add` and
assigns `a + b`. -/
def add (cfg : FieldConfig) (st : SynthState) (a b : Number) :
    Number × SynthState :=
  let r := st.nextRow
  let v := a.val + b.val
  (⟨(cfg.advice.1.idx, r + 1), v⟩,
   { st with
      nextRow := r + 2,
      selectors := (cfg.s_add, r) :: st.selectors,
      copies := (b.cell, (cfg.advice.2.idx, r)) ::
        (a.cell, (cfg.advice.1.idx, r)) :: st.copies,
      advice := ((cfg.advice.1.idx, r + 1), v) ::
        ((cfg.advice.2.idx, r), b.val) ::
        ((cfg.advice.1.idx, r), a.val) :: st.advice })

/-- `expose_public(num, row)`: binds `num`'s cell to row `row` of the
instance column by an equality constraint. -/
def expose_public (st : SynthState) (num : Number) (row : Nat) :
    SynthState :=
  { st with instBindings := (num.cell, row) :: st.instBindings }

end FieldChip

/-- `MyCircuit`: the circuit instance — the public constant and the private
witness `x` (unknown in the structural pass). -/
structure MyCircuit where
  constant : F
  x : Value F
deriving DecidableEq, Repr

namespace MyCircuit

/-- `#[derive(Default)]`: `Fp::default()` is zero and `Value::default()` is
unknown. -/
def default : MyCircuit := ⟨0, .unknown⟩

/-- `MyCircuit::without_witnesses`: the value-free structural twin of the
circuit, `Self::default()`. -/
def without_witnesses (_ : MyCircuit) : MyCircuit := default

/-- `MyCircuit::configure`: declares two advice columns, one instance
column and one fixed column, then calls `FieldChip::configure`. -/
def configure : FieldConfig × ConstraintSystem :=
  let m0 := ConstraintSystem.init
  let p0 := m0.advice_column
  let p1 := p0.2.advice_column
  let pi := p1.2.instance_column
  let pf := pi.2.fixed_column
  FieldChip.configure pf.2 (p0.1, p1.1) pi.1 pf.1

/-- `MyCircuit::synthesize`, translated from src/halo/src/main.rs: load
`x` and the constant, compute `x2 = x*x`, `x3 = x2*x`, `x3 + x`,
`x3 + x + constant`, and expose the result at instance row 0. -/
def synthesize (circ : MyCircuit) : SynthState :=
  let cfg := configure.1
  let p1 := FieldChip.load_private cfg SynthState.init circ.x
  let p2 := FieldChip.load_constant cfg p1.2 circ.constant
  let p3 := FieldChip.mul cfg p2.2 p1.1 p1.1
  let p4 := FieldChip.mul cfg p3.2 p3.1 p1.1
  let p5 := FieldChip.add cfg p4.2 p4.1 p1.1
  let p6 := FieldChip.add cfg p5.2 p5.1 p2.1
  FieldChip.expose_public p6.2 p6.1 0

end MyCircuit

/-! ## The verifier (mock prover)

Modelled from the spec, section 4.4: `MockProver::run` lays out the full
table (rejecting a layout that does not fit into the `2^k` rows) and
`verify` checks (a) every registered gate polynomial evaluates to zero at
every row where its selector is 1, (b) every copy constraint's two cells
hold equal values, (c) every instance-binding cell equals its corresponding
supplied public input (and each constant-anchored cell its constant),
reporting an exhaustive list of violations rather than failing fast. -/

/-- A constraint violation, identified by constraint class, row and
column. -/
inductive Violation where
  | gate : Nat → Nat → Violation
  | copy : Nat → Nat → Nat → Nat → Violation
  | instanceBinding : Nat → Nat → Nat → Violation
  | constantBinding : Nat → Nat → Violation
deriving DecidableEq, Repr

/-- Is this violation an instance-binding (public-input equality)
violation? -/
def Violation.isInstanceBinding : Violation → Bool
  | .instanceBinding _ _ _ => true
  | _ => false

/-- The gate polynomials registered by this circuit's configuration. -/
def registeredPolys : List Expr :=
  MyCircuit.configure.2.gates.flatMap (fun g => g.2)

/-- Check one registered polynomial of the form `selector * P` at row `r`,
given that selector `s` is enabled at `r`: the body `P` must evaluate to
`known 0` there (advice queries are resolved at `r` plus their rotation;
a selector factor evaluates to 1 on its enabled row). -/
def checkPolyAt (st : SynthState) (r : Nat) (e : Expr) (s : Nat) :
    Option Violation :=
  match e with
  | .mul (.selectorQ s') body =>
      if s' = s then
        if body.eval (fun c rot => st.advVal c ((r : Int) + rot).toNat)
            (fun _ => .known 1) = .known 0 then none
        else some (.gate s r)
      else none
  | _ => none

/-- Gate check (a): every registered gate polynomial evaluates to zero at
every row where its selector is 1 (the selector column is 1 exactly on the
rows where the chip enabled it; everywhere else `selector * P` vanishes
identically). -/
def gateViolations (st : SynthState) : List Violation :=
  st.selectors.flatMap fun p => registeredPolys.filterMap (checkPolyAt st p.2 · p.1)

/-- Copy check (b): the two cells of every copy constraint hold equal
values. -/
def copyViolations (st : SynthState) : List Violation :=
  st.copies.filterMap fun p =>
    if st.advVal p.1.1 p.1.2 = st.advVal p.2.1 p.2.2 then none
    else some (.copy p.1.1 p.1.2 p.2.1 p.2.2)

/-- Instance check (c): every instance-binding cell equals its supplied
public input; an unresolved cell, or a binding past the end of the
public-input vector, is a violation. -/
def instanceViolations (st : SynthState) (inst : List F) : List Violation :=
  st.instBindings.filterMap fun p =>
    match inst.get? p.2 with
    | some y =>
        if st.advVal p.1.1 p.1.2 = .known y then none
        else some (.instanceBinding p.1.1 p.1.2 p.2)
    | none => some (.instanceBinding p.1.1 p.1.2 p.2)

/-- Constant check: every constant-anchored cell holds its externally fixed
value. -/
def constantViolations (st : SynthState) : List Violation :=
  st.constants.filterMap fun p =>
    if st.advVal p.1.1 p.1.2 = .known p.2 then none
    else some (.constantBinding p.1.1 p.1.2)

/-- The exhaustive violation list for a laid-out table against a
public-input vector. -/
def verifyList (st : SynthState) (inst : List F) : List Violation :=
  gateViolations st ++ copyViolations st ++
    instanceViolations st inst ++ constantViolations st

/-- `MockProver::run` can fail before any constraint is checked when the
layout does not fit the table. -/
inductive Halo2Error where
  | notEnoughRowsAvailable : Halo2Error
deriving DecidableEq, Repr

/-- The mock prover: the laid-out table plus the supplied public-input
vector (a single instance column here). -/
structure MockProver where
  table : SynthState
  instances : List F
deriving DecidableEq, Repr

/-- `MockProver::run(k, circuit, instance)`: synthesizes the circuit into
a table and fails with a layout error if the table needs more than `2^k`
rows. -/
def MockProver.run (k : Nat) (circ : MyCircuit) (inst : List F) :
    Except Halo2Error MockProver :=
  let st := circ.synthesize
  if st.nextRow ≤ 2 ^ k then .ok ⟨st, inst⟩
  else .error .notEnoughRowsAvailable

/-- `MockProver::verify`: `Ok(())` when no constraint is violated,
otherwise the exhaustive list of violations. -/
def MockProver.verify (p : MockProver) : Except (List Violation) Unit :=
  match verifyList p.table p.instances with
  | [] => .ok ()
  | v :: vs => .error (v :: vs)

/-! ## The execution-trace collaborator (risc0 guest and host)

The guest program is translated from src/resczero/methods/guest/src/main.rs;
its arithmetic is checked u64 arithmetic. The zkVM transport
(`env::read`, `env::commit`, `prove`, the receipt) is modelled from the
spec's external contract `prove(x) -> (receipt, y)`. -/

/-- The largest u64 value, `2^64 - 1`. -/
def u64Max : Nat := 18446744073709551615

/-- `u64::checked_mul`: `none` on overflow past `u64::MAX`. -/
def checked_mul (a b : Nat) : Option Nat :=
  if a * b ≤ u64Max then some (a * b) else none

/-- `u64::checked_add`: `none` on overflow past `u64::MAX`. -/
def checked_add (a b : Nat) : Option Nat :=
  if a + b ≤ u64Max then some (a + b) else none

/-- The guest's chain of checked operations:
`x.checked_mul(x).and_then(*x).and_then(+x).and_then(+5)`. -/
def checkedPoly (x : Nat) : Option Nat :=
  (checked_mul x x).bind fun x2 =>
    (checked_mul x2 x).bind fun x3 =>
      (checked_add x3 x).bind fun s => checked_add s 5

/-- The ways the guest computation can refuse to run: the input-bound check,
or the overflow `expect` on the checked chain. Either aborts the guest
before anything is committed. -/
inductive GuestAbort where
  | inputTooLarge : GuestAbort
  | overflow : GuestAbort
deriving DecidableEq, Repr

/-- The guest `main` from src/resczero/methods/guest/src/main.rs: reads
`x`, refuses to run at all if `x > 100`, computes
`y = x^3 + x + 5` with checked u64 arithmetic (aborting on overflow), and
commits `y` to the journal. `.ok y` is the committed output; `.error _`
is an abort with nothing committed. -/
def guestMain (x : Nat) : Except GuestAbort Nat :=
  if 100 < x then .error .inputTooLarge
  else
    match checkedPoly x with
    | some y => .ok y
    | none => .error .overflow

/-- Modelled from the spec: the receipt returned by the collaborator's
`prove`, whose journal holds the guest's committed output. -/
structure Receipt where
  journal : Nat
deriving DecidableEq, Repr

/-- `host::polynomial(x)`, from src/resczero/host/src/lib.rs, against the
spec's external contract `prove(x) -> (receipt, y)`: runs the guest inside
the prover and decodes the committed output from the receipt's journal;
`none` when the guest aborted (the host's `unwrap` on proving fails). -/
def polynomial (x : Nat) : Option (Receipt × Nat) :=
  match guestMain x with
  | .ok y => some (⟨y⟩, y)
  | .error _ => none

/-! ## The table synthesized from a known witness -/

/-- The table produced by synthesizing the circuit with known witness `x`
and constant `c`, written out row by row: row 0 loads `x`, row 1 the
constant, rows 2–3 and 4–5 the two `mul` regions, rows 6–7 and 8–9 the two
`add` regions, and the result cell (0, 9) is bound to instance row 0. -/
def knownTable (x c : F) : SynthState where
  nextRow := 10
  advice :=
    [((0, 9), .known (x * x * x + x + c)), ((1, 8), .known c),
     ((0, 8), .known (x * x * x + x)), ((0, 7), .known (x * x * x + x)),
     ((1, 6), .known x), ((0, 6), .known (x * x * x)),
     ((0, 5), .known (x * x * x)), ((1, 4), .known x),
     ((0, 4), .known (x * x)), ((0, 3), .known (x * x)),
     ((1, 2), .known x), ((0, 2), .known x),
     ((0, 1), .known c), ((0, 0), .known x)]
  selectors := [(1, 8), (1, 6), (0, 4), (0, 2)]
  copies :=
    [((0, 1), (1, 8)), ((0, 7), (0, 8)), ((0, 0), (1, 6)), ((0, 5), (0, 6)),
     ((0, 0), (1, 4)), ((0, 3), (0, 4)), ((0, 0), (1, 2)), ((0, 0), (0, 2))]
  constants := [((0, 1), c)]
  instBindings := [((0, 9), 0)]

/-- Synthesizing with a known witness yields exactly `knownTable`. -/
theorem synthesize_known (x c : F) :
    MyCircuit.synthesize ⟨c, .known x⟩ = knownTable x c := rfl

/-- The circuit registers exactly the mul polynomial
`s_mul * (a_0 * a_1 - out)` and the add polynomial
`s_add * (a_0 + a_1 - out)`. -/
theorem registeredPolys_eq :
    registeredPolys =
      [.mul (.selectorQ 0) (.sub (.mul (.advice 0 0) (.advice 1 0)) (.advice 0 1)),
       .mul (.selectorQ 1) (.sub (.add (.advice 0 0) (.advice 1 0)) (.advice 0 1))] :=
  rfl

/-- Characterization of verification on a known-witness table: the gate,
copy and constant checks always pass, and the whole outcome reduces to the
single instance-binding check `x^3 + x + c = y`. -/
theorem verifyList_known (x c y : F) :
    verifyList (knownTable x c) [y] =
      if x * x * x + x + c = y then [] else [.instanceBinding 0 9 0] := by
  by_cases h : x * x * x + x + c = y <;>
    simp [verifyList, gateViolations, registeredPolys_eq, checkPolyAt,
      copyViolations, instanceViolations, constantViolations, knownTable,
      SynthState.advVal, lookupCell, Expr.eval, h]

/-- Running the mock prover at `k = 4` on a known witness lays the table
out successfully. -/
theorem run_known (x c y : F) :
    MockProver.run 4 ⟨c, .known x⟩ [y] = .ok ⟨knownTable x c, [y]⟩ := rfl

/-- The full pipeline on a known witness: accepted exactly when the public
input equals `x^3 + x + c` (as `x * x * x + x + c`), with the reported
violation otherwise being the instance binding of the result cell. -/
theorem run_verify_known (x c y : F) :
    (MockProver.run 4 ⟨c, .known x⟩ [y]).map MockProver.verify =
      .ok (if x * x * x + x + c = y then .ok ()
           else .error [.instanceBinding 0 9 0]) := by
  rw [run_known]
  by_cases h : x * x * x + x + c = y <;>
    simp [Except.map, MockProver.verify, verifyList_known, h]

/-! ## Claims -/

/-- C1: for every field element `x` and constant `c`, synthesizing the
circuit with witness `x` and constant `c` and running the mock verifier at
`k = 4` with public input `[x^3 + x + c]` succeeds; in particular `x = 3`,
`c = 5` verifies against `[35]` and `x = 5`, `c = 5` against `[135]`. -/
theorem C1_correct_public_input_verifies :
    (∀ x c : F, (MockProver.run 4 ⟨c, .known x⟩ [x ^ 3 + x + c]).map
        MockProver.verify = .ok (.ok ())) ∧
    (MockProver.run 4 ⟨5, .known 3⟩ [35]).map MockProver.verify =
      .ok (.ok ()) ∧
    (MockProver.run 4 ⟨5, .known 5⟩ [135]).map MockProver.verify =
      .ok (.ok ()) := by
  have key : ∀ x c y : F, x * x * x + x + c = y →
      (MockProver.run 4 ⟨c, .known x⟩ [y]).map MockProver.verify =
        .ok (.ok ()) := by
    intro x c y h
    rw [run_verify_known, if_pos h]
  exact ⟨fun x c => key x c _ (by ring),
    key 3 5 35 (by norm_num), key 5 5 135 (by norm_num)⟩

/-- C2: for every `x`, `c` and public input `y ≠ x^3 + x + c`, the mock
verifier on the synthesized circuit fails, and the reported violation set
contains an instance-binding (public-input equality) violation. -/
theorem C2_wrong_public_input_fails (x c y : F) (h : y ≠ x ^ 3 + x + c) :
    ∃ p vs, MockProver.run 4 ⟨c, .known x⟩ [y] = .ok p ∧
      p.verify = .error vs ∧ ∃ v ∈ vs, v.isInstanceBinding = true := by
  have hne : ¬(x * x * x + x + c = y) := by
    intro he
    exact h (by rw [← he]; ring)
  refine ⟨⟨knownTable x c, [y]⟩, [.instanceBinding 0 9 0], run_known x c y,
    ?_, .instanceBinding 0 9 0, by simp, rfl⟩
  simp [MockProver.verify, verifyList_known, if_neg hne]

/-- C2 witness: `x = 3`, `c = 5` with public input `[36]` (the repository's
own failing check) is rejected with an instance-binding violation. -/
theorem C2_wrong_public_input_fails_witness :
    ∃ p vs, MockProver.run 4 ⟨5, .known 3⟩ [36] = .ok p ∧
      p.verify = .error vs ∧ ∃ v ∈ vs, v.isInstanceBinding = true :=
  C2_wrong_public_input_fails 3 5 36 (by
    intro h
    rw [show (3 : F) ^ 3 + 3 + 5 = 35 by norm_num] at h
    exact absurd h (by decide))

/-- C3: the configurator registers exactly the two gate identities
`selector * P`: the mul-gate polynomial `s_mul * (a_0 * a_1 - out)` and the
add-gate polynomial `s_add * (a_0 + a_1 - out)`, where `a_0`, `a_1` are the
two advice columns (indices 0 and 1) queried at the current row and `out`
is advice column 0 queried at rotation +1, each multiplied by its own
selector (`s_mul = 0`, `s_add = 1`); the verifier checks each registered
polynomial at every row where its selector is 1 (`gateViolations`), and on
every query assignment the two polynomials evaluate to
`s_mul * (a_0 * a_1 - out)` and `s_add * (a_0 + a_1 - out)`. -/
theorem C3_registered_gates :
    MyCircuit.configure.2.gates =
      [("mul|add",
        [.mul (.selectorQ MyCircuit.configure.1.s_mul)
           (.sub (.mul (.advice 0 0) (.advice 1 0)) (.advice 0 1)),
         .mul (.selectorQ MyCircuit.configure.1.s_add)
           (.sub (.add (.advice 0 0) (.advice 1 0)) (.advice 0 1))])] ∧
    MyCircuit.configure.1.s_mul = 0 ∧
    MyCircuit.configure.1.s_add = 1 ∧
    MyCircuit.configure.1.advice = (⟨.advice, 0⟩, ⟨.advice, 1⟩) ∧
    (∀ (adv : Nat → Int → Value F) (sel : Nat → Value F),
      Expr.eval adv sel
          (.mul (.selectorQ 0)
            (.sub (.mul (.advice 0 0) (.advice 1 0)) (.advice 0 1))) =
        sel 0 * (adv 0 0 * adv 1 0 - adv 0 1)) ∧
    (∀ (adv : Nat → Int → Value F) (sel : Nat → Value F),
      Expr.eval adv sel
          (.mul (.selectorQ 1)
            (.sub (.add (.advice 0 0) (.advice 1 0)) (.advice 0 1))) =
        sel 1 * (adv 0 0 + adv 1 0 - adv 0 1)) :=
  ⟨rfl, rfl, rfl, rfl, fun _ _ => rfl, fun _ _ => rfl⟩

/-- C4: each call to `mul(a, b)` (resp. `add(a, b)`) opens a fresh two-row
region at the layout cursor, enables exactly the matching selector at row 0
of the region, adds copy constraints binding `a`'s cell into advice-0/row 0
and `b`'s cell into advice-1/row 0 (assigning the copied values there),
assigns `a.val * b.val` (resp. `a.val + b.val`) to advice-0/row 1 — known
product/sum when both operands are known, unknown when either operand is
unknown — and returns the handle of that result cell. -/
theorem C4_mul_add_region_shape (st : SynthState) (a b : Number) :
    ((FieldChip.mul MyCircuit.configure.1 st a b).2.nextRow =
        st.nextRow + 2 ∧
      (FieldChip.mul MyCircuit.configure.1 st a b).2.selectors =
        (MyCircuit.configure.1.s_mul, st.nextRow) :: st.selectors ∧
      (FieldChip.mul MyCircuit.configure.1 st a b).2.copies =
        (b.cell, (1, st.nextRow)) :: (a.cell, (0, st.nextRow)) :: st.copies ∧
      (FieldChip.mul MyCircuit.configure.1 st a b).2.advVal 0 st.nextRow =
        a.val ∧
      (FieldChip.mul MyCircuit.configure.1 st a b).2.advVal 1 st.nextRow =
        b.val ∧
      (FieldChip.mul MyCircuit.configure.1 st a b).2.advVal 0
        (st.nextRow + 1) = a.val * b.val ∧
      (FieldChip.mul MyCircuit.configure.1 st a b).1 =
        ⟨(0, st.nextRow + 1), a.val * b.val⟩) ∧
    ((FieldChip.add MyCircuit.configure.1 st a b).2.nextRow =
        st.nextRow + 2 ∧
      (FieldChip.add MyCircuit.configure.1 st a b).2.selectors =
        (MyCircuit.configure.1.s_add, st.nextRow) :: st.selectors ∧
      (FieldChip.add MyCircuit.configure.1 st a b).2.copies =
        (b.cell, (1, st.nextRow)) :: (a.cell, (0, st.nextRow)) :: st.copies ∧
      (FieldChip.add MyCircuit.configure.1 st a b).2.advVal 0 st.nextRow =
        a.val ∧
      (FieldChip.add MyCircuit.configure.1 st a b).2.advVal 1 st.nextRow =
        b.val ∧
      (FieldChip.add MyCircuit.configure.1 st a b).2.advVal 0
        (st.nextRow + 1) = a.val + b.val ∧
      (FieldChip.add MyCircuit.configure.1 st a b).1 =
        ⟨(0, st.nextRow + 1), a.val + b.val⟩) ∧
    (∀ va vb : F, (Value.known va : Value F) * .known vb =
        .known (va * vb)) ∧
    (∀ va vb : F, (Value.known va : Value F) + .known vb =
        .known (va + vb)) ∧
    (∀ v : Value F, Value.unknown * v = .unknown ∧ v * Value.unknown =
        .unknown ∧ Value.unknown + v = .unknown ∧ v + Value.unknown =
        .unknown) := by
  refine ⟨⟨rfl, rfl, rfl, ?_, ?_, ?_, rfl⟩, ⟨rfl, rfl, rfl, ?_, ?_, ?_, rfl⟩,
    fun _ _ => rfl, fun _ _ => rfl, fun v => ⟨by simp, by simp, by simp, by simp⟩⟩ <;>
    simp [FieldChip.mul, FieldChip.add, SynthState.advVal, lookupCell,
      MyCircuit.configure, FieldChip.configure, ConstraintSystem.advice_column,
      ConstraintSystem.instance_column, ConstraintSystem.fixed_column,
      ConstraintSystem.selector, ConstraintSystem.init]

/-- C5: the value-free structural pass `without_witnesses` is the circuit
with constant 0 and the witness forced to unknown; at `k = 4` its synthesis
(table layout) succeeds, and verifying it against any concrete public-input
vector fails. -/
theorem C5_structural_pass (m : MyCircuit) (inst : List F) :
    m.without_witnesses = ⟨0, Value.unknown⟩ ∧
    ∃ p, MockProver.run 4 m.without_witnesses inst = .ok p ∧
      ∃ vs, p.verify = .error vs :=
  ⟨rfl, ⟨_, rfl, ⟨_, rfl⟩⟩⟩

/-- C6: if the table fits at `k` (the run is not a layout error), running
at any `k' ≥ k` yields the identical outcome; if it does not fit, the run
is the layout error `NotEnoughRowsAvailable` rather than a constraint
violation. -/
theorem C6_k_monotone (circ : MyCircuit) (inst : List F) (k k' : Nat) :
    ((MockProver.run k circ inst).isOk = true → k ≤ k' →
      MockProver.run k' circ inst = MockProver.run k circ inst) ∧
    ((MockProver.run k circ inst).isOk = false →
      MockProver.run k circ inst = .error .notEnoughRowsAvailable) := by
  constructor
  · intro hok hkk
    by_cases h : circ.synthesize.nextRow ≤ 2 ^ k
    · unfold MockProver.run
      rw [if_pos h,
        if_pos (le_trans h (Nat.pow_le_pow_right (by norm_num) hkk))]
    · unfold MockProver.run at hok
      rw [if_neg h] at hok
      exact absurd hok (by simp [Except.isOk, Except.toBool])
  · intro hbad
    by_cases h : circ.synthesize.nextRow ≤ 2 ^ k
    · unfold MockProver.run at hbad
      rw [if_pos h] at hbad
      exact absurd hbad (by simp [Except.isOk, Except.toBool])
    · unfold MockProver.run
      rw [if_neg h]

/-- C6 witness: at `x = 3`, `c = 5`, `[35]`, the run at `k = 5` equals the
run at `k = 4`, and the run at `k = 3` (8 rows for a 10-row layout) is the
layout error. -/
theorem C6_k_monotone_witness :
    MockProver.run 5 ⟨5, .known 3⟩ [35] = MockProver.run 4 ⟨5, .known 3⟩ [35] ∧
    MockProver.run 3 ⟨5, .known 3⟩ [35] = .error .notEnoughRowsAvailable :=
  ⟨(C6_k_monotone ⟨5, .known 3⟩ [35] 4 5).1 rfl (by norm_num),
   (C6_k_monotone ⟨5, .known 3⟩ [35] 3 3).2 rfl⟩

/-- C9: in every table synthesized from this circuit, no row has both the
`s_mul` and the `s_add` selector enabled. -/
theorem C9_selector_mutual_exclusion (circ : MyCircuit) (r : Nat) :
    ¬((MyCircuit.configure.1.s_mul, r) ∈ circ.synthesize.selectors ∧
      (MyCircuit.configure.1.s_add, r) ∈ circ.synthesize.selectors) := by
  have hsel : circ.synthesize.selectors = [(1, 8), (1, 6), (0, 4), (0, 2)] :=
    rfl
  have hmul : MyCircuit.configure.1.s_mul = 0 := rfl
  have hadd : MyCircuit.configure.1.s_add = 1 := rfl
  rw [hsel, hmul, hadd]
  rintro ⟨h1, h2⟩
  simp only [List.mem_cons, List.not_mem_nil, Prod.mk.injEq, or_false] at h1 h2
  omega

/-- Under the guest's input bound, every step of the checked chain stays
far below `u64::MAX` (the largest intermediate is `100^3 + 100 + 5`), so
the chain returns `some (x^3 + x + 5)`. -/
theorem checkedPoly_le100 {x : Nat} (h : x ≤ 100) :
    checkedPoly x = some (x * x * x + x + 5) := by
  have h2 : x * x ≤ 10000 := Nat.mul_le_mul h h
  have h3 : x * x * x ≤ 1000000 := Nat.mul_le_mul h2 h
  have e1 : checked_mul x x = some (x * x) := by
    unfold checked_mul u64Max
    rw [if_pos (by omega)]
  have e2 : checked_mul (x * x) x = some (x * x * x) := by
    unfold checked_mul u64Max
    rw [if_pos (by omega)]
  have e3 : checked_add (x * x * x) x = some (x * x * x + x) := by
    unfold checked_add u64Max
    rw [if_pos (by omega)]
  have e4 : checked_add (x * x * x + x) 5 = some (x * x * x + x + 5) := by
    unfold checked_add u64Max
    rw [if_pos (by omega)]
  unfold checkedPoly
  simp only [e1, e2, e3, e4, Option.some_bind]

/-- C7: every input `x > 100` makes the guest refuse to run at all — it
aborts with the input-bound violation before committing any output, an
abort distinct from a constraint violation — while for `x ≤ 100` the guest
proceeds to compute and commits a result. -/
theorem C7_guest_input_bound (x : Nat) :
    (100 < x → guestMain x = .error .inputTooLarge) ∧
    (x ≤ 100 → ∃ y, guestMain x = .ok y) := by
  constructor
  · intro h
    unfold guestMain
    rw [if_pos h]
  · intro h
    refine ⟨x * x * x + x + 5, ?_⟩
    unfold guestMain
    rw [if_neg (by omega), checkedPoly_le100 h]

/-- C7 witness: the guest refuses `x = 101` and commits a result for
`x = 3`. -/
theorem C7_guest_input_bound_witness :
    guestMain 101 = .error .inputTooLarge ∧ ∃ y, guestMain 3 = .ok y :=
  ⟨(C7_guest_input_bound 101).1 (by omega),
   (C7_guest_input_bound 3).2 (by omega)⟩

/-- C8: for every in-range input `x ≤ 100`, the execution-trace
collaborator's `polynomial(x)` returns a receipt/output pair whose
committed and decoded output is `x^3 + x + 5`. -/
theorem C8_polynomial_output (x : Nat) (h : x ≤ 100) :
    polynomial x = some (⟨x * x * x + x + 5⟩, x * x * x + x + 5) := by
  unfold polynomial guestMain
  rw [if_neg (by omega), checkedPoly_le100 h]

/-- C8 witness: `polynomial 3` yields output 35 with journal 35. -/
theorem C8_polynomial_output_witness :
    polynomial 3 = some (⟨35⟩, 35) :=
  C8_polynomial_output 3 (by omega)

/-- C10: for every `x ≤ 100` the guest's chain of checked u64 operations
never returns `none` — it returns `x^3 + x + 5`, bounded by
`100^3 + 100 + 5 = 1000105`, far below `u64::MAX` — so the overflow panic
branch is unreachable and the guest always commits a value. -/
theorem C10_no_overflow (x : Nat) (h : x ≤ 100) :
    checkedPoly x = some (x * x * x + x + 5) ∧
    x * x * x + x + 5 ≤ 1000105 ∧
    guestMain x ≠ .error .overflow ∧
    ∃ y, guestMain x = .ok y := by
  have hp := checkedPoly_le100 h
  have h2 : x * x ≤ 10000 := Nat.mul_le_mul h h
  have h3 : x * x * x ≤ 1000000 := Nat.mul_le_mul h2 h
  have hg : guestMain x = .ok (x * x * x + x + 5) := by
    unfold guestMain
    rw [if_neg (by omega), hp]
  refine ⟨hp, by omega, ?_, ⟨_, hg⟩⟩
  rw [hg]
  exact fun hcon => Except.noConfusion hcon

/-- C10 witness: at the boundary `x = 100` the chain returns
`1000105` and the guest commits it. -/
theorem C10_no_overflow_witness :
    checkedPoly 100 = some 1000105 ∧ (1000105 : Nat) ≤ 1000105 ∧
    guestMain 100 ≠ .error .overflow ∧ ∃ y, guestMain 100 = .ok y :=
  C10_no_overflow 100 (by omega)

end ZkExample
